import Mathlib

/-!
Verification of the RBAC permission-modeling core of the weaviate python
client (`weaviate/rbac/models.py`): action registries, permission variants,
wire projection and parsing, role aggregation, and the permission builders.

Python classes become Lean structures, the `PermissionsOutputType` union an
inductive sum, string enums become inductives with a `value` projection and a
`values` string list, and Python exceptions (an invalid `RoleScope(...)`
conversion) surface as `Except`.  `TypedDict` keys that the parser reads with
`.get(key, default)` are modelled as `Option` fields of the wire records.
-/

namespace WeaviateRBAC

/-- Modelled from the spec: `_capitalize_first_letter` (from `weaviate.util`,
not among the given sources) capitalizes the first letter of a string and
leaves the rest unchanged. -/
def capitalizeFirstLetter (s : String) : String :=
  match s.data with
  | [] => s
  | c :: cs => String.mk (c.toUpper :: cs)

/-- Scope of the role permission (`RoleScope` string enum). -/
inductive RoleScope where
  | MATCH
  | ALL
deriving DecidableEq, Repr

def RoleScope.value : RoleScope → String
  | .MATCH => "match"
  | .ALL => "all"

/-- Mirrors the Python `RoleScope(s)` conversion: succeeds exactly on the
enum's values. -/
def RoleScope.ofString? (s : String) : Option RoleScope :=
  if s = "match" then some .MATCH
  else if s = "all" then some .ALL
  else none

/-! Wire sub-objects (the `TypedDict`s).  `PermissionCollections.tenant` and
`PermissionNodes.collection` are `Option` because the parser reads them with
`.get(_, "*")`; `PermissionRoles.scope` is `NotRequired` in the source. -/

structure PermissionData where
  collection : String
deriving DecidableEq, Repr

structure PermissionCollections where
  collection : String
  tenant : Option String
deriving DecidableEq, Repr

structure PermissionsTenants where
  collection : String
  tenant : String
deriving DecidableEq, Repr

structure PermissionNodes where
  collection : Option String
  verbosity : String
deriving DecidableEq, Repr

structure PermissionBackup where
  collection : String
deriving DecidableEq, Repr

structure PermissionRoles where
  role : String
  scope : Option String
deriving DecidableEq, Repr

structure PermissionsUsers where
  users : String
deriving DecidableEq, Repr

/-- Wire permission: `action` is always present, at most one sub-object is
populated (`total=False` on the Python side). -/
structure WeaviatePermission where
  action : String
  data : Option PermissionData := none
  collections : Option PermissionCollections := none
  nodes : Option PermissionNodes := none
  backups : Option PermissionBackup := none
  roles : Option PermissionRoles := none
  tenants : Option PermissionsTenants := none
  users : Option PermissionsUsers := none
deriving DecidableEq, Repr

structure WeaviateRole where
  name : String
  permissions : List WeaviatePermission
deriving DecidableEq, Repr

/-! Action registries: one string enum per resource category. -/

inductive CollectionsAction where
  | CREATE
  | READ
  | UPDATE
  | DELETE
  | MANAGE
deriving DecidableEq, Repr

def CollectionsAction.value : CollectionsAction → String
  | .CREATE => "create_collections"
  | .READ => "read_collections"
  | .UPDATE => "update_collections"
  | .DELETE => "delete_collections"
  | .MANAGE => "manage_collections"

def CollectionsAction.values : List String :=
  ["create_collections", "read_collections", "update_collections",
   "delete_collections", "manage_collections"]

def CollectionsAction.ofString? (s : String) : Option CollectionsAction :=
  if s = "create_collections" then some .CREATE
  else if s = "read_collections" then some .READ
  else if s = "update_collections" then some .UPDATE
  else if s = "delete_collections" then some .DELETE
  else if s = "manage_collections" then some .MANAGE
  else none

inductive TenantsAction where
  | CREATE
  | READ
  | UPDATE
  | DELETE
deriving DecidableEq, Repr

def TenantsAction.value : TenantsAction → String
  | .CREATE => "create_tenants"
  | .READ => "read_tenants"
  | .UPDATE => "update_tenants"
  | .DELETE => "delete_tenants"

def TenantsAction.values : List String :=
  ["create_tenants", "read_tenants", "update_tenants", "delete_tenants"]

def TenantsAction.ofString? (s : String) : Option TenantsAction :=
  if s = "create_tenants" then some .CREATE
  else if s = "read_tenants" then some .READ
  else if s = "update_tenants" then some .UPDATE
  else if s = "delete_tenants" then some .DELETE
  else none

inductive DataAction where
  | CREATE
  | READ
  | UPDATE
  | DELETE
  | MANAGE
deriving DecidableEq, Repr

def DataAction.value : DataAction → String
  | .CREATE => "create_data"
  | .READ => "read_data"
  | .UPDATE => "update_data"
  | .DELETE => "delete_data"
  | .MANAGE => "manage_data"

def DataAction.values : List String :=
  ["create_data", "read_data", "update_data", "delete_data", "manage_data"]

def DataAction.ofString? (s : String) : Option DataAction :=
  if s = "create_data" then some .CREATE
  else if s = "read_data" then some .READ
  else if s = "update_data" then some .UPDATE
  else if s = "delete_data" then some .DELETE
  else if s = "manage_data" then some .MANAGE
  else none

inductive RolesAction where
  | MANAGE
  | READ
deriving DecidableEq, Repr

def RolesAction.value : RolesAction → String
  | .MANAGE => "manage_roles"
  | .READ => "read_roles"

def RolesAction.values : List String := ["manage_roles", "read_roles"]

def RolesAction.ofString? (s : String) : Option RolesAction :=
  if s = "manage_roles" then some .MANAGE
  else if s = "read_roles" then some .READ
  else none

inductive UsersAction where
  | ASSIGN_AND_REVOKE
deriving DecidableEq, Repr

def UsersAction.value : UsersAction → String
  | .ASSIGN_AND_REVOKE => "assign_and_revoke_users"

def UsersAction.values : List String := ["assign_and_revoke_users"]

def UsersAction.ofString? (s : String) : Option UsersAction :=
  if s = "assign_and_revoke_users" then some .ASSIGN_AND_REVOKE else none

inductive ClusterAction where
  | READ
deriving DecidableEq, Repr

def ClusterAction.value : ClusterAction → String
  | .READ => "read_cluster"

def ClusterAction.values : List String := ["read_cluster"]

def ClusterAction.ofString? (s : String) : Option ClusterAction :=
  if s = "read_cluster" then some .READ else none

inductive NodesAction where
  | READ
deriving DecidableEq, Repr

def NodesAction.value : NodesAction → String
  | .READ => "read_nodes"

def NodesAction.values : List String := ["read_nodes"]

def NodesAction.ofString? (s : String) : Option NodesAction :=
  if s = "read_nodes" then some .READ else none

inductive BackupsAction where
  | MANAGE
deriving DecidableEq, Repr

def BackupsAction.value : BackupsAction → String
  | .MANAGE => "manage_backups"

def BackupsAction.values : List String := ["manage_backups"]

def BackupsAction.ofString? (s : String) : Option BackupsAction :=
  if s = "manage_backups" then some .MANAGE else none

/-! Permission variants (the `_Permission` pydantic models), field order as in
the source classes.  `_RolesPermission.scope` is `Optional[str]` there, so it
is `Option String` here. -/

structure _CollectionsPermission where
  collection : String
  tenant : String
  action : CollectionsAction
deriving DecidableEq, Repr

structure _TenantsPermission where
  collection : String
  action : TenantsAction
deriving DecidableEq, Repr

structure _NodesPermission where
  verbosity : String
  collection : String
  action : NodesAction
deriving DecidableEq, Repr

structure _RolesPermission where
  role : String
  scope : Option String := none
  action : RolesAction
deriving DecidableEq, Repr

structure _UsersPermission where
  action : UsersAction
  users : String
deriving DecidableEq, Repr

structure _BackupsPermission where
  collection : String
  action : BackupsAction
deriving DecidableEq, Repr

structure _ClusterPermission where
  action : ClusterAction
deriving DecidableEq, Repr

structure _DataPermission where
  collection : String
  action : DataAction
deriving DecidableEq, Repr

def _CollectionsPermission._to_weaviate (p : _CollectionsPermission) : WeaviatePermission :=
  { action := p.action.value,
    collections := some ⟨capitalizeFirstLetter p.collection, some p.tenant⟩ }

def _TenantsPermission._to_weaviate (p : _TenantsPermission) : WeaviatePermission :=
  { action := p.action.value,
    tenants := some ⟨capitalizeFirstLetter p.collection, "*"⟩ }

def _NodesPermission._to_weaviate (p : _NodesPermission) : WeaviatePermission :=
  { action := p.action.value,
    nodes := some ⟨some (capitalizeFirstLetter p.collection), p.verbosity⟩ }

def _RolesPermission._to_weaviate (p : _RolesPermission) : WeaviatePermission :=
  { action := p.action.value,
    roles := some ⟨p.role, p.scope⟩ }

def _UsersPermission._to_weaviate (p : _UsersPermission) : WeaviatePermission :=
  { action := p.action.value,
    users := some ⟨p.users⟩ }

def _BackupsPermission._to_weaviate (p : _BackupsPermission) : WeaviatePermission :=
  { action := p.action.value,
    backups := some ⟨capitalizeFirstLetter p.collection⟩ }

def _ClusterPermission._to_weaviate (p : _ClusterPermission) : WeaviatePermission :=
  { action := p.action.value }

def _DataPermission._to_weaviate (p : _DataPermission) : WeaviatePermission :=
  { action := p.action.value,
    data := some ⟨capitalizeFirstLetter p.collection⟩ }

/-- The `PermissionsOutputType` union of the eight variant classes. -/
inductive PermissionsOutputType where
  | cluster (p : _ClusterPermission)
  | collections (p : _CollectionsPermission)
  | data (p : _DataPermission)
  | roles (p : _RolesPermission)
  | users (p : _UsersPermission)
  | backups (p : _BackupsPermission)
  | nodes (p : _NodesPermission)
  | tenants (p : _TenantsPermission)
deriving DecidableEq, Repr

def PermissionsOutputType._to_weaviate : PermissionsOutputType → WeaviatePermission
  | .cluster p => p._to_weaviate
  | .collections p => p._to_weaviate
  | .data p => p._to_weaviate
  | .roles p => p._to_weaviate
  | .users p => p._to_weaviate
  | .backups p => p._to_weaviate
  | .nodes p => p._to_weaviate
  | .tenants p => p._to_weaviate

/-- The `Role` dataclass, field order as in the source. -/
structure Role where
  name : String
  cluster_permissions : List _ClusterPermission
  collections_permissions : List _CollectionsPermission
  data_permissions : List _DataPermission
  roles_permissions : List _RolesPermission
  users_permissions : List _UsersPermission
  backups_permissions : List _BackupsPermission
  nodes_permissions : List _NodesPermission
  tenants_permissions : List _TenantsPermission
deriving DecidableEq, Repr

/-- The `Role.permissions` property: extends an empty list by the eight
category lists in the order written in the source. -/
def Role.permissions (r : Role) : List PermissionsOutputType :=
  r.cluster_permissions.map .cluster
    ++ r.collections_permissions.map .collections
    ++ r.data_permissions.map .data
    ++ r.roles_permissions.map .roles
    ++ r.users_permissions.map .users
    ++ r.backups_permissions.map .backups
    ++ r.nodes_permissions.map .nodes
    ++ r.tenants_permissions.map .tenants

/-- Outcome of routing one wire permission through the `elif` chain of
`Role._from_weaviate_role`: a typed variant, a silent skip (category matched
but its sub-object is missing), an unknown action (the warning branch), or a
Python exception (an invalid `RoleScope(scope)` conversion). -/
inductive ParseResult where
  | ok (v : PermissionsOutputType)
  | skipped
  | unknown
  | failed
deriving DecidableEq, Repr

/-- The `elif` chain of `Role._from_weaviate_role`, branch for branch and in
the source's order.  Testing `permission["action"] in Xs.values()` and then
converting with `X(permission["action"])` is rendered as one match on
`X.ofString?`. -/
def classifyPermission (p : WeaviatePermission) : ParseResult :=
  match ClusterAction.ofString? p.action with
  | some a => .ok (.cluster ⟨a⟩)
  | none =>
  match UsersAction.ofString? p.action with
  | some a =>
    match p.users with
    | some u => .ok (.users ⟨a, u.users⟩)
    | none => .skipped
  | none =>
  match CollectionsAction.ofString? p.action with
  | some a =>
    match p.collections with
    | some c => .ok (.collections ⟨c.collection, c.tenant.getD "*", a⟩)
    | none => .skipped
  | none =>
  match TenantsAction.ofString? p.action with
  | some a =>
    match p.tenants with
    | some t => .ok (.tenants ⟨t.collection, a⟩)
    | none => .skipped
  | none =>
  match RolesAction.ofString? p.action with
  | some a =>
    match p.roles with
    | some rs =>
      match rs.scope with
      | none => .ok (.roles ⟨rs.role, none, a⟩)
      | some s =>
        if s = "" then .ok (.roles ⟨rs.role, none, a⟩)
        else
          match RoleScope.ofString? s with
          | some sc => .ok (.roles ⟨rs.role, some sc.value, a⟩)
          | none => .failed
    | none => .skipped
  | none =>
  match DataAction.ofString? p.action with
  | some a =>
    match p.data with
    | some d => .ok (.data ⟨d.collection, a⟩)
    | none => .skipped
  | none =>
  match BackupsAction.ofString? p.action with
  | some a =>
    match p.backups with
    | some b => .ok (.backups ⟨b.collection, a⟩)
    | none => .skipped
  | none =>
  match NodesAction.ofString? p.action with
  | some a =>
    match p.nodes with
    | some n => .ok (.nodes ⟨n.verbosity, n.collection.getD "*", a⟩)
    | none => .skipped
  | none => .unknown

/-- The eight per-category accumulator lists of `_from_weaviate_role`, plus
the permissions handed to `_Warnings.unknown_permission_encountered`. -/
structure RoleBuckets where
  cluster_permissions : List _ClusterPermission := []
  collections_permissions : List _CollectionsPermission := []
  data_permissions : List _DataPermission := []
  roles_permissions : List _RolesPermission := []
  users_permissions : List _UsersPermission := []
  backups_permissions : List _BackupsPermission := []
  nodes_permissions : List _NodesPermission := []
  tenants_permissions : List _TenantsPermission := []
  warnings : List WeaviatePermission := []
deriving DecidableEq, Repr

def RoleBuckets.add (b : RoleBuckets) : PermissionsOutputType → RoleBuckets
  | .cluster p => { b with cluster_permissions := b.cluster_permissions ++ [p] }
  | .collections p => { b with collections_permissions := b.collections_permissions ++ [p] }
  | .data p => { b with data_permissions := b.data_permissions ++ [p] }
  | .roles p => { b with roles_permissions := b.roles_permissions ++ [p] }
  | .users p => { b with users_permissions := b.users_permissions ++ [p] }
  | .backups p => { b with backups_permissions := b.backups_permissions ++ [p] }
  | .nodes p => { b with nodes_permissions := b.nodes_permissions ++ [p] }
  | .tenants p => { b with tenants_permissions := b.tenants_permissions ++ [p] }

/-- One loop iteration of `_from_weaviate_role`; an uncaught Python exception
is `Except.error ()`. -/
def roleStep (b : RoleBuckets) (p : WeaviatePermission) : Except Unit RoleBuckets :=
  match classifyPermission p with
  | .ok v => .ok (b.add v)
  | .skipped => .ok b
  | .unknown => .ok { b with warnings := b.warnings ++ [p] }
  | .failed => .error ()

/-- `Role._from_weaviate_role`: iterates every raw permission through the
`elif` chain, then assembles the `Role`.  Alongside the role it returns the
permissions that were reported to the warning sink. -/
def Role._from_weaviate_role (role : WeaviateRole) :
    Except Unit (Role × List WeaviatePermission) :=
  (role.permissions.foldlM roleStep {}).map fun b =>
    (⟨role.name, b.cluster_permissions, b.collections_permissions,
      b.data_permissions, b.roles_permissions, b.users_permissions,
      b.backups_permissions, b.nodes_permissions, b.tenants_permissions⟩,
     b.warnings)

/-! Factories.  A Python `Optional[str] = None` parameter is `Option String`;
the idiom `x or "*"` maps `none` and the empty string to `"*"`. -/

def orStar (s : Option String) : String :=
  match s with
  | none => "*"
  | some s => if s = "" then "*" else s

def _DataFactory.create (collection : String) : _DataPermission :=
  ⟨collection, .CREATE⟩

def _DataFactory.read (collection : String) : _DataPermission :=
  ⟨collection, .READ⟩

def _DataFactory.update (collection : String) : _DataPermission :=
  ⟨collection, .UPDATE⟩

def _DataFactory.delete (collection : String) : _DataPermission :=
  ⟨collection, .DELETE⟩

def _CollectionsFactory.create (collection : Option String := none) : _CollectionsPermission :=
  ⟨orStar collection, "*", .CREATE⟩

def _CollectionsFactory.read (collection : Option String := none) : _CollectionsPermission :=
  ⟨orStar collection, "*", .READ⟩

def _CollectionsFactory.update (collection : Option String := none) : _CollectionsPermission :=
  ⟨orStar collection, "*", .UPDATE⟩

def _CollectionsFactory.delete (collection : Option String := none) : _CollectionsPermission :=
  ⟨orStar collection, "*", .DELETE⟩

def _TenantsFactory.create (collection : Option String := none) : _TenantsPermission :=
  ⟨orStar collection, .CREATE⟩

def _TenantsFactory.read (collection : Option String := none) : _TenantsPermission :=
  ⟨orStar collection, .READ⟩

def _TenantsFactory.update (collection : Option String := none) : _TenantsPermission :=
  ⟨orStar collection, .UPDATE⟩

def _TenantsFactory.delete (collection : Option String := none) : _TenantsPermission :=
  ⟨orStar collection, .DELETE⟩

def _RolesFactory.manage (role : Option String := none) (scope : Option String := none) :
    _RolesPermission :=
  ⟨orStar role, scope, .MANAGE⟩

def _RolesFactory.read (role : Option String := none) : _RolesPermission :=
  ⟨orStar role, none, .READ⟩

def _UsersFactory.assign_and_revoke (user : String) : _UsersPermission :=
  ⟨.ASSIGN_AND_REVOKE, user⟩

def _ClusterFactory.read : _ClusterPermission :=
  ⟨.READ⟩

def _NodesFactory.read (collection : Option String := none)
    (verbosity : String := "minimal") : _NodesPermission :=
  ⟨verbosity, orStar collection, .READ⟩

def _BackupsFactory.manage (collection : Option String := none) : _BackupsPermission :=
  ⟨orStar collection, .MANAGE⟩

/-- A `Union[str, Sequence[str]]` argument. -/
inductive StrOrSeq where
  | one (s : String)
  | many (l : List String)
deriving DecidableEq, Repr

/-- The `if isinstance(collection, str): collection = [collection]`
normalization. -/
def StrOrSeq.toList : StrOrSeq → List String
  | .one s => [s]
  | .many l => l

/-- The `manage` argument of `Permissions.roles`:
`Optional[Union[RoleScope, bool]]`. -/
inductive ManageArg where
  | asScope (s : RoleScope)
  | asBool (b : Bool)
deriving DecidableEq, Repr

/-! The `Permissions` builder surface.  Each builder mirrors the Python loop:
an accumulator list, the scoping values as outer loop, the flag checks in the
source's order appending to the accumulator. -/

def Permissions.data (collection : StrOrSeq) (create : Bool := false)
    (read : Bool := false) (update : Bool := false) (delete : Bool := false) :
    List PermissionsOutputType :=
  collection.toList.foldl (fun permissions c =>
    let permissions := if create then permissions ++ [.data (_DataFactory.create c)] else permissions
    let permissions := if read then permissions ++ [.data (_DataFactory.read c)] else permissions
    let permissions := if update then permissions ++ [.data (_DataFactory.update c)] else permissions
    if delete then permissions ++ [.data (_DataFactory.delete c)] else permissions) []

def Permissions.collections (collection : StrOrSeq) (create_collection : Bool := false)
    (read_config : Bool := false) (update_config : Bool := false)
    (delete_collection : Bool := false) : List PermissionsOutputType :=
  collection.toList.foldl (fun permissions c =>
    let permissions :=
      if create_collection then permissions ++ [.collections (_CollectionsFactory.create (some c))]
      else permissions
    let permissions :=
      if read_config then permissions ++ [.collections (_CollectionsFactory.read (some c))]
      else permissions
    let permissions :=
      if update_config then permissions ++ [.collections (_CollectionsFactory.update (some c))]
      else permissions
    if delete_collection then permissions ++ [.collections (_CollectionsFactory.delete (some c))]
    else permissions) []

def Permissions.tenants (collection : StrOrSeq) (create : Bool := false)
    (read : Bool := false) (update : Bool := false) (delete : Bool := false) :
    List PermissionsOutputType :=
  collection.toList.foldl (fun permissions c =>
    let permissions :=
      if create then permissions ++ [.tenants (_TenantsFactory.create (some c))] else permissions
    let permissions :=
      if read then permissions ++ [.tenants (_TenantsFactory.read (some c))] else permissions
    let permissions :=
      if update then permissions ++ [.tenants (_TenantsFactory.update (some c))] else permissions
    if delete then permissions ++ [.tenants (_TenantsFactory.delete (some c))] else permissions) []

def Permissions.roles (role : StrOrSeq) (read : Bool := false)
    (manage : Option ManageArg := none) : List PermissionsOutputType :=
  role.toList.foldl (fun permissions r =>
    let permissions :=
      if read then permissions ++ [.roles (_RolesFactory.read (some r))] else permissions
    match manage with
    | none => permissions
    | some (.asBool _) => permissions ++ [.roles (_RolesFactory.manage (some r))]
    | some (.asScope s) =>
        permissions ++ [.roles (_RolesFactory.manage (some r) (some s.value))]) []

def Permissions.users (user : StrOrSeq) (assign_and_revoke : Bool := false) :
    List PermissionsOutputType :=
  user.toList.foldl (fun permissions u =>
    if assign_and_revoke then permissions ++ [.users (_UsersFactory.assign_and_revoke u)]
    else permissions) []

def Permissions.backup (collection : StrOrSeq) (manage : Bool := false) :
    List PermissionsOutputType :=
  collection.toList.foldl (fun permissions c =>
    if manage then permissions ++ [.backups (_BackupsFactory.manage (some c))]
    else permissions) []

def Permissions.nodes (collection : StrOrSeq) (verbosity : String := "minimal")
    (read : Bool := false) : List PermissionsOutputType :=
  collection.toList.foldl (fun permissions c =>
    if read then permissions ++ [.nodes (_NodesFactory.read (some c) verbosity)]
    else permissions) []

def Permissions.cluster (read : Bool := false) : List PermissionsOutputType :=
  if read then [.cluster _ClusterFactory.read] else []

/-- Every action string of the eight registries, in the priority order of the
`elif` chain. -/
def allActionValues : List String :=
  ClusterAction.values ++ UsersAction.values ++ CollectionsAction.values
    ++ TenantsAction.values ++ RolesAction.values ++ DataAction.values
    ++ BackupsAction.values ++ NodesAction.values

/-- A variant is legal per the spec's data model when its `scope` field, if
present, is one of the `RoleScope` values; every other field is already
constrained by its type. -/
def legalOutput : PermissionsOutputType → Bool
  | .roles p =>
    match p.scope with
    | none => true
    | some s => s == "match" || s == "all"
  | _ => true

/-- Whether the variant's `collection` field (for the categories that have
one) is unchanged by first-letter capitalization. -/
def collectionCapitalized : PermissionsOutputType → Bool
  | .cluster _ => true
  | .users _ => true
  | .roles _ => true
  | .collections p => capitalizeFirstLetter p.collection == p.collection
  | .data p => capitalizeFirstLetter p.collection == p.collection
  | .tenants p => capitalizeFirstLetter p.collection == p.collection
  | .backups p => capitalizeFirstLetter p.collection == p.collection
  | .nodes p => capitalizeFirstLetter p.collection == p.collection

/-- A wire permission whose `roles` sub-object, on a roles action, carries a
scope the Python `RoleScope(scope)` conversion accepts (or that the guarding
`if scope` skips). -/
def validScopeField (p : WeaviatePermission) : Bool :=
  !(RolesAction.values.contains p.action) ||
    (match p.roles with
     | none => true
     | some rs =>
       match rs.scope with
       | none => true
       | some s => s == "" || s == "match" || s == "all")

/-- A wire permission whose action matches some category but whose required
sub-object key is absent. -/
def requiredSubObjectMissing (p : WeaviatePermission) : Bool :=
  (UsersAction.values.contains p.action && p.users.isNone) ||
  (CollectionsAction.values.contains p.action && p.collections.isNone) ||
  (TenantsAction.values.contains p.action && p.tenants.isNone) ||
  (RolesAction.values.contains p.action && p.roles.isNone) ||
  (DataAction.values.contains p.action && p.data.isNone) ||
  (BackupsAction.values.contains p.action && p.backups.isNone) ||
  (NodesAction.values.contains p.action && p.nodes.isNone)

/-! Supporting lemmas. -/

theorem contains_eq_false_iff (l : List String) (s : String) :
    l.contains s = false ↔ s ∉ l := by
  rw [← Bool.not_eq_true, List.elem_iff]

theorem RolesAction.contains_of_some {s : String} {a : RolesAction}
    (h : RolesAction.ofString? s = some a) : RolesAction.values.contains s = true := by
  rw [List.elem_iff]
  unfold RolesAction.ofString? at h
  split_ifs at h with h1 h2 <;> simp_all [RolesAction.values]

theorem classify_ne_failed_of_validScope {p : WeaviatePermission}
    (h : validScopeField p = true) : classifyPermission p ≠ .failed := by
  intro hfail
  unfold classifyPermission at hfail
  repeat' split at hfail
  all_goals simp_all
  rename_i _ _ _ _ _ _ _ _ _ a ha _ rs hrs _ s hs hne _ hnone
  have hmem := RolesAction.contains_of_some ha
  simp only [validScopeField, hmem, hrs, hs, Bool.not_true, Bool.false_or] at h
  simp at h
  rcases h with (rfl | rfl) | rfl
  · exact hne rfl
  · simp [RoleScope.ofString?] at hnone
  · simp [RoleScope.ofString?] at hnone

theorem classify_skipped_of_missing {p : WeaviatePermission}
    (h : requiredSubObjectMissing p = true) : classifyPermission p = .skipped := by
  unfold requiredSubObjectMissing at h
  simp only [Bool.or_eq_true, Bool.and_eq_true, List.elem_iff,
    Option.isNone_iff_eq_none] at h
  rcases h with ((((((⟨hm, hn⟩ | ⟨hm, hn⟩) | ⟨hm, hn⟩) | ⟨hm, hn⟩) | ⟨hm, hn⟩) | ⟨hm, hn⟩) | ⟨hm, hn⟩)
  · simp [UsersAction.values] at hm
    simp [classifyPermission, ClusterAction.ofString?, UsersAction.ofString?, hm, hn]
  · simp [CollectionsAction.values] at hm
    rcases hm with hm | hm | hm | hm | hm <;>
      simp [classifyPermission, ClusterAction.ofString?, UsersAction.ofString?,
        CollectionsAction.ofString?, hm, hn]
  · simp [TenantsAction.values] at hm
    rcases hm with hm | hm | hm | hm <;>
      simp [classifyPermission, ClusterAction.ofString?, UsersAction.ofString?,
        CollectionsAction.ofString?, TenantsAction.ofString?, hm, hn]
  · simp [RolesAction.values] at hm
    rcases hm with hm | hm <;>
      simp [classifyPermission, ClusterAction.ofString?, UsersAction.ofString?,
        CollectionsAction.ofString?, TenantsAction.ofString?, RolesAction.ofString?, hm, hn]
  · simp [DataAction.values] at hm
    rcases hm with hm | hm | hm | hm | hm <;>
      simp [classifyPermission, ClusterAction.ofString?, UsersAction.ofString?,
        CollectionsAction.ofString?, TenantsAction.ofString?, RolesAction.ofString?,
        DataAction.ofString?, hm, hn]
  · simp [BackupsAction.values] at hm
    simp [classifyPermission, ClusterAction.ofString?, UsersAction.ofString?,
      CollectionsAction.ofString?, TenantsAction.ofString?, RolesAction.ofString?,
      DataAction.ofString?, BackupsAction.ofString?, hm, hn]
  · simp [NodesAction.values] at hm
    simp [classifyPermission, ClusterAction.ofString?, UsersAction.ofString?,
      CollectionsAction.ofString?, TenantsAction.ofString?, RolesAction.ofString?,
      DataAction.ofString?, BackupsAction.ofString?, NodesAction.ofString?, hm, hn]

theorem cluster_ofString_eq_none {s : String} (h : s ∉ ClusterAction.values) :
    ClusterAction.ofString? s = none := by
  unfold ClusterAction.ofString?
  split_ifs <;> simp_all [ClusterAction.values]

theorem users_ofString_eq_none {s : String} (h : s ∉ UsersAction.values) :
    UsersAction.ofString? s = none := by
  unfold UsersAction.ofString?
  split_ifs <;> simp_all [UsersAction.values]

theorem collections_ofString_eq_none {s : String} (h : s ∉ CollectionsAction.values) :
    CollectionsAction.ofString? s = none := by
  unfold CollectionsAction.ofString?
  split_ifs <;> simp_all [CollectionsAction.values]

theorem tenants_ofString_eq_none {s : String} (h : s ∉ TenantsAction.values) :
    TenantsAction.ofString? s = none := by
  unfold TenantsAction.ofString?
  split_ifs <;> simp_all [TenantsAction.values]

theorem roles_ofString_eq_none {s : String} (h : s ∉ RolesAction.values) :
    RolesAction.ofString? s = none := by
  unfold RolesAction.ofString?
  split_ifs <;> simp_all [RolesAction.values]

theorem data_ofString_eq_none {s : String} (h : s ∉ DataAction.values) :
    DataAction.ofString? s = none := by
  unfold DataAction.ofString?
  split_ifs <;> simp_all [DataAction.values]

theorem backups_ofString_eq_none {s : String} (h : s ∉ BackupsAction.values) :
    BackupsAction.ofString? s = none := by
  unfold BackupsAction.ofString?
  split_ifs <;> simp_all [BackupsAction.values]

theorem nodes_ofString_eq_none {s : String} (h : s ∉ NodesAction.values) :
    NodesAction.ofString? s = none := by
  unfold NodesAction.ofString?
  split_ifs <;> simp_all [NodesAction.values]

theorem classify_unknown_of_not_mem {p : WeaviatePermission}
    (h : allActionValues.contains p.action = false) : classifyPermission p = .unknown := by
  rw [contains_eq_false_iff] at h
  have h1 : p.action ∉ ClusterAction.values := fun hc => h (by simp [allActionValues, hc])
  have h2 : p.action ∉ UsersAction.values := fun hc => h (by simp [allActionValues, hc])
  have h3 : p.action ∉ CollectionsAction.values := fun hc => h (by simp [allActionValues, hc])
  have h4 : p.action ∉ TenantsAction.values := fun hc => h (by simp [allActionValues, hc])
  have h5 : p.action ∉ RolesAction.values := fun hc => h (by simp [allActionValues, hc])
  have h6 : p.action ∉ DataAction.values := fun hc => h (by simp [allActionValues, hc])
  have h7 : p.action ∉ BackupsAction.values := fun hc => h (by simp [allActionValues, hc])
  have h8 : p.action ∉ NodesAction.values := fun hc => h (by simp [allActionValues, hc])
  simp [classifyPermission, cluster_ofString_eq_none h1,
    users_ofString_eq_none h2, collections_ofString_eq_none h3,
    tenants_ofString_eq_none h4, roles_ofString_eq_none h5,
    data_ofString_eq_none h6, backups_ofString_eq_none h7,
    nodes_ofString_eq_none h8]

theorem foldlM_roleStep_ok : ∀ (ps : List WeaviatePermission) (b : RoleBuckets),
    (∀ p ∈ ps, classifyPermission p ≠ .failed) →
    ∃ b', List.foldlM roleStep b ps = .ok b' := by
  intro ps
  induction ps with
  | nil => exact fun b _ => ⟨b, rfl⟩
  | cons p ps ih =>
    intro b h
    have hp := h p (by simp)
    have hrest : ∀ q ∈ ps, classifyPermission q ≠ .failed :=
      fun q hq => h q (List.mem_cons_of_mem _ hq)
    rw [List.foldlM_cons]
    rcases hcl : classifyPermission p with v | - | - | -
    · obtain ⟨b', hb'⟩ := ih (b.add v) hrest
      exact ⟨b', by rw [show roleStep b p = .ok (b.add v) from by simp [roleStep, hcl]]; exact hb'⟩
    · obtain ⟨b', hb'⟩ := ih b hrest
      exact ⟨b', by rw [show roleStep b p = .ok b from by simp [roleStep, hcl]]; exact hb'⟩
    · obtain ⟨b', hb'⟩ := ih { b with warnings := b.warnings ++ [p] } hrest
      exact ⟨b', by
        rw [show roleStep b p = .ok { b with warnings := b.warnings ++ [p] } from by
          simp [roleStep, hcl]]
        exact hb'⟩
    · exact absurd hcl hp

theorem from_weaviate_role_skips (name : String) (ps₁ ps₂ : List WeaviatePermission)
    (q : WeaviatePermission) (hq : classifyPermission q = .skipped) :
    Role._from_weaviate_role ⟨name, ps₁ ++ q :: ps₂⟩ =
      Role._from_weaviate_role ⟨name, ps₁ ++ ps₂⟩ := by
  unfold Role._from_weaviate_role
  simp only [List.foldlM_append]
  congr 1
  cases hfold : List.foldlM roleStep {} ps₁ with
  | error e => rfl
  | ok b =>
    show List.foldlM roleStep b (q :: ps₂) = List.foldlM roleStep b ps₂
    rw [List.foldlM_cons]
    rw [show roleStep b q = .ok b from by simp [roleStep, hq]]
    rfl

theorem foldl_append_flatMap {α β : Type} (f : List β → α → List β) (g : α → List β)
    (hf : ∀ acc x, f acc x = acc ++ g x) :
    ∀ (l : List α) (init : List β), List.foldl f init l = init ++ l.flatMap g := by
  intro l
  induction l with
  | nil => intro init; simp
  | cons x xs ih =>
    intro init
    rw [List.foldl_cons, hf, ih, List.flatMap_cons, List.append_assoc]

theorem foldl_append_flatMap_nil {α β : Type} (f : List β → α → List β) (g : α → List β)
    (hf : ∀ acc x, f acc x = acc ++ g x) (l : List α) :
    List.foldl f [] l = l.flatMap g := by
  simpa using foldl_append_flatMap f g hf l []

theorem Permissions.data_eq (col : StrOrSeq) (create read update delete : Bool) :
    Permissions.data col create read update delete =
      col.toList.flatMap (fun c =>
        (if create then [.data (_DataFactory.create c)] else []) ++
        (if read then [.data (_DataFactory.read c)] else []) ++
        (if update then [.data (_DataFactory.update c)] else []) ++
        (if delete then [.data (_DataFactory.delete c)] else [])) := by
  unfold Permissions.data
  exact foldl_append_flatMap_nil _ _
    (by intro acc c; cases create <;> cases read <;> cases update <;> cases delete <;> simp) _

theorem Permissions.collections_eq (col : StrOrSeq)
    (create_collection read_config update_config delete_collection : Bool) :
    Permissions.collections col create_collection read_config update_config delete_collection =
      col.toList.flatMap (fun c =>
        (if create_collection then [.collections (_CollectionsFactory.create (some c))] else []) ++
        (if read_config then [.collections (_CollectionsFactory.read (some c))] else []) ++
        (if update_config then [.collections (_CollectionsFactory.update (some c))] else []) ++
        (if delete_collection then [.collections (_CollectionsFactory.delete (some c))] else [])) := by
  unfold Permissions.collections
  exact foldl_append_flatMap_nil _ _
    (by intro acc c
        cases create_collection <;> cases read_config <;> cases update_config <;>
          cases delete_collection <;> simp) _

theorem Permissions.tenants_eq (col : StrOrSeq) (create read update delete : Bool) :
    Permissions.tenants col create read update delete =
      col.toList.flatMap (fun c =>
        (if create then [.tenants (_TenantsFactory.create (some c))] else []) ++
        (if read then [.tenants (_TenantsFactory.read (some c))] else []) ++
        (if update then [.tenants (_TenantsFactory.update (some c))] else []) ++
        (if delete then [.tenants (_TenantsFactory.delete (some c))] else [])) := by
  unfold Permissions.tenants
  exact foldl_append_flatMap_nil _ _
    (by intro acc c; cases create <;> cases read <;> cases update <;> cases delete <;> simp) _

theorem Permissions.roles_eq (ro : StrOrSeq) (read : Bool) (manage : Option ManageArg) :
    Permissions.roles ro read manage =
      ro.toList.flatMap (fun r =>
        (if read then [.roles (_RolesFactory.read (some r))] else []) ++
        (match manage with
         | none => []
         | some (.asBool _) => [.roles (_RolesFactory.manage (some r))]
         | some (.asScope s) => [.roles (_RolesFactory.manage (some r) (some s.value))])) := by
  unfold Permissions.roles
  exact foldl_append_flatMap_nil _ _
    (by intro acc r; cases read <;> rcases manage with - | (s | b) <;> simp) _

theorem Permissions.users_eq (us : StrOrSeq) (assign_and_revoke : Bool) :
    Permissions.users us assign_and_revoke =
      us.toList.flatMap (fun u =>
        if assign_and_revoke then [.users (_UsersFactory.assign_and_revoke u)] else []) := by
  unfold Permissions.users
  exact foldl_append_flatMap_nil _ _
    (by intro acc u; cases assign_and_revoke <;> simp) _

theorem Permissions.backup_eq (col : StrOrSeq) (manage : Bool) :
    Permissions.backup col manage =
      col.toList.flatMap (fun c =>
        if manage then [.backups (_BackupsFactory.manage (some c))] else []) := by
  unfold Permissions.backup
  exact foldl_append_flatMap_nil _ _
    (by intro acc c; cases manage <;> simp) _

theorem Permissions.nodes_eq (col : StrOrSeq) (verbosity : String) (read : Bool) :
    Permissions.nodes col verbosity read =
      col.toList.flatMap (fun c =>
        if read then [.nodes (_NodesFactory.read (some c) verbosity)] else []) := by
  unfold Permissions.nodes
  exact foldl_append_flatMap_nil _ _
    (by intro acc c; cases read <;> simp) _

theorem tenants_parse_verbatim (a : TenantsAction) (c t : String) :
    classifyPermission { action := a.value, tenants := some ⟨c, t⟩ } =
      .ok (.tenants ⟨c, a⟩) := by
  cases a <;>
    simp [classifyPermission, TenantsAction.value, ClusterAction.ofString?,
      UsersAction.ofString?, CollectionsAction.ofString?, TenantsAction.ofString?]

/-! Claims. -/

/-- Claim C1, counterexample: the round-trip `fromWire(toWire(variant)) == variant`
fails for a legal Data variant with the lowercase collection `"foo"`, because the
outbound projection capitalizes the collection and the inbound path keeps `"Foo"`. -/
theorem data_roundtrip_uncapitalized_fails :
    classifyPermission ((PermissionsOutputType.data ⟨"foo", .READ⟩)._to_weaviate) ≠
      ParseResult.ok (.data ⟨"foo", .READ⟩) := by decide

/-- Claim C1, amended: for every legal Permission Variant (scope, when present,
one of the `RoleScope` values) whose collection field, where the category has
one, is already first-letter-capitalized — which includes the optional-field
defaults `"*"` — parsing the wire record produced by the variant's projection
returns the variant unchanged. -/
theorem roundtrip_of_legal_capitalized (v : PermissionsOutputType)
    (hleg : legalOutput v = true) (hcap : collectionCapitalized v = true) :
    classifyPermission v._to_weaviate = .ok v := by
  rcases v with ⟨⟨a⟩⟩ | ⟨⟨c, t, a⟩⟩ | ⟨⟨c, a⟩⟩ | ⟨⟨r, sc, a⟩⟩ | ⟨⟨a, u⟩⟩ | ⟨⟨c, a⟩⟩ | ⟨⟨vb, c, a⟩⟩ | ⟨⟨c, a⟩⟩
  · cases a; decide
  · simp only [collectionCapitalized, beq_iff_eq] at hcap
    cases a <;>
      simp [classifyPermission, PermissionsOutputType._to_weaviate,
        _CollectionsPermission._to_weaviate, CollectionsAction.value,
        ClusterAction.ofString?, UsersAction.ofString?, CollectionsAction.ofString?, hcap]
  · simp only [collectionCapitalized, beq_iff_eq] at hcap
    cases a <;>
      simp [classifyPermission, PermissionsOutputType._to_weaviate,
        _DataPermission._to_weaviate, DataAction.value, ClusterAction.ofString?,
        UsersAction.ofString?, CollectionsAction.ofString?, TenantsAction.ofString?,
        RolesAction.ofString?, DataAction.ofString?, hcap]
  · rcases sc with - | s
    · cases a <;>
        simp [classifyPermission, PermissionsOutputType._to_weaviate,
          _RolesPermission._to_weaviate, RolesAction.value, ClusterAction.ofString?,
          UsersAction.ofString?, CollectionsAction.ofString?, TenantsAction.ofString?,
          RolesAction.ofString?]
    · simp only [legalOutput, Bool.or_eq_true, beq_iff_eq] at hleg
      rcases hleg with rfl | rfl <;> cases a <;>
        simp [classifyPermission, PermissionsOutputType._to_weaviate,
          _RolesPermission._to_weaviate, RolesAction.value, RoleScope.ofString?,
          RoleScope.value, ClusterAction.ofString?, UsersAction.ofString?,
          CollectionsAction.ofString?, TenantsAction.ofString?, RolesAction.ofString?]
  · cases a
    simp [classifyPermission, PermissionsOutputType._to_weaviate,
      _UsersPermission._to_weaviate, UsersAction.value, ClusterAction.ofString?,
      UsersAction.ofString?]
  · simp only [collectionCapitalized, beq_iff_eq] at hcap
    cases a
    simp [classifyPermission, PermissionsOutputType._to_weaviate,
      _BackupsPermission._to_weaviate, BackupsAction.value, ClusterAction.ofString?,
      UsersAction.ofString?, CollectionsAction.ofString?, TenantsAction.ofString?,
      RolesAction.ofString?, DataAction.ofString?, BackupsAction.ofString?, hcap]
  · simp only [collectionCapitalized, beq_iff_eq] at hcap
    cases a
    simp [classifyPermission, PermissionsOutputType._to_weaviate,
      _NodesPermission._to_weaviate, NodesAction.value, ClusterAction.ofString?,
      UsersAction.ofString?, CollectionsAction.ofString?, TenantsAction.ofString?,
      RolesAction.ofString?, DataAction.ofString?, BackupsAction.ofString?,
      NodesAction.ofString?, hcap]
  · simp only [collectionCapitalized, beq_iff_eq] at hcap
    cases a <;>
      simp [classifyPermission, PermissionsOutputType._to_weaviate,
        _TenantsPermission._to_weaviate, TenantsAction.value, ClusterAction.ofString?,
        UsersAction.ofString?, CollectionsAction.ofString?, TenantsAction.ofString?, hcap]

/-- Claim C1, witness: the amended round-trip theorem applied to the concrete
Data variant with collection `"Foo"`. -/
theorem roundtrip_legal_capitalized_witness :
    legalOutput (.data ⟨"Foo", .READ⟩) = true ∧
    collectionCapitalized (.data ⟨"Foo", .READ⟩) = true ∧
    classifyPermission ((PermissionsOutputType.data ⟨"Foo", .READ⟩)._to_weaviate) =
      .ok (.data ⟨"Foo", .READ⟩) :=
  ⟨by decide, by decide, roundtrip_of_legal_capitalized _ (by decide) (by decide)⟩

/-- Claim C2, counterexample: the Roles builder invoked with `read=false` and
the false (falsy but present) boolean `manage=False` still emits a manage
Variant, so the result is not the empty list the claim requires. -/
theorem roles_manage_false_still_emits :
    Permissions.roles (.one "r") false (some (.asBool false)) =
      [.roles ⟨"r", none, .MANAGE⟩] ∧
    Permissions.roles (.one "r") false (some (.asBool false)) ≠ [] := by
  constructor <;> decide

/-- Claim C2, amended: every builder invoked with all action flags false and
the optional arguments absent returns the empty list, and the Roles builder
emits a manage Variant exactly when its `manage` argument is non-absent
(not `None`), regardless of the argument's truthiness. -/
theorem builders_empty_on_absent_flags :
    (∀ col : StrOrSeq, Permissions.data col false false false false = []) ∧
    (∀ col : StrOrSeq, Permissions.collections col false false false false = []) ∧
    (∀ col : StrOrSeq, Permissions.tenants col false false false false = []) ∧
    (∀ ro : StrOrSeq, Permissions.roles ro false none = []) ∧
    (∀ us : StrOrSeq, Permissions.users us false = []) ∧
    (∀ col : StrOrSeq, Permissions.backup col false = []) ∧
    (∀ (col : StrOrSeq) (verbosity : String), Permissions.nodes col verbosity false = []) ∧
    Permissions.cluster false = [] ∧
    (∀ (r : String) (m : ManageArg), Permissions.roles (.one r) false (some m) =
      [.roles (_RolesFactory.manage (some r)
        (match m with | .asBool _ => none | .asScope s => some s.value))]) := by
  refine ⟨?_, ?_, ?_, ?_, ?_, ?_, ?_, ?_, ?_⟩
  · intro col; simp [Permissions.data_eq]
  · intro col; simp [Permissions.collections_eq]
  · intro col; simp [Permissions.tenants_eq]
  · intro ro; simp [Permissions.roles_eq]
  · intro us; simp [Permissions.users_eq]
  · intro col; simp [Permissions.backup_eq]
  · intro col vb; simp [Permissions.nodes_eq]
  · decide
  · intro r m
    rcases m with s | b <;> simp [Permissions.roles_eq, StrOrSeq.toList]

/-- Claim C3, counterexample: `_from_weaviate_role` does fail on a wire role
whose roles permission carries the invalid scope string `"bogus"` — the
`RoleScope("bogus")` conversion raises. -/
theorem from_weaviate_role_raises_on_bad_scope :
    Role._from_weaviate_role ⟨"r",
      [{ action := "manage_roles", roles := some ⟨"x", some "bogus"⟩ }]⟩ = .error () := rfl

/-- Claim C3, amended: provided no roles-action permission carries a non-empty
scope outside the `RoleScope` values, `_from_weaviate_role` never fails, and a
permission whose action matches a category but whose required sub-object key is
absent is silently dropped, leaving the parse of all remaining permissions
unchanged. -/
theorem from_weaviate_role_total_and_skips :
    (∀ role : WeaviateRole, (∀ p ∈ role.permissions, validScopeField p = true) →
      ∃ out, Role._from_weaviate_role role = .ok out) ∧
    (∀ (name : String) (ps₁ ps₂ : List WeaviatePermission) (q : WeaviatePermission),
      requiredSubObjectMissing q = true →
      Role._from_weaviate_role ⟨name, ps₁ ++ q :: ps₂⟩ =
        Role._from_weaviate_role ⟨name, ps₁ ++ ps₂⟩) := by
  constructor
  · intro role h
    obtain ⟨b', hb'⟩ := foldlM_roleStep_ok role.permissions {}
      (fun p hp => classify_ne_failed_of_validScope (h p hp))
    exact ⟨_, by unfold Role._from_weaviate_role; rw [hb']; rfl⟩
  · intro name ps₁ ps₂ q hq
    exact from_weaviate_role_skips name ps₁ ps₂ q (classify_skipped_of_missing hq)

/-- Claim C3, witness: totality on a concrete one-permission role and
skip-transparency for a concrete data permission lacking its `data`
sub-object. -/
theorem from_weaviate_role_total_and_skips_witness :
    (∃ out, Role._from_weaviate_role ⟨"n", [{ action := "read_cluster" }]⟩ = .ok out) ∧
    Role._from_weaviate_role ⟨"n", [] ++ { action := "read_data" } :: []⟩ =
      Role._from_weaviate_role ⟨"n", [] ++ []⟩ :=
  ⟨from_weaviate_role_total_and_skips.1 _ (by decide),
   from_weaviate_role_total_and_skips.2 "n" [] [] _ (by decide)⟩

/-- Claim C4: a wire role holding one recognized permission (`read_cluster`)
and one permission whose action matches none of the eight categories parses
without failing to a role containing exactly the recognized variant, while the
unrecognized permission is dropped and reported to the warning sink. -/
theorem unknown_action_warned_and_dropped (name : String) (p : WeaviatePermission)
    (h : allActionValues.contains p.action = false) :
    Role._from_weaviate_role ⟨name, [{ action := "read_cluster" }, p]⟩ =
      .ok (⟨name, [⟨.READ⟩], [], [], [], [], [], [], []⟩, [p]) := by
  have hu := classify_unknown_of_not_mem h
  unfold Role._from_weaviate_role
  show (List.foldlM roleStep ({} : RoleBuckets) _).map _ = _
  rw [List.foldlM_cons]
  show (List.foldlM roleStep { cluster_permissions := [⟨ClusterAction.READ⟩] } [p]).map _ = _
  rw [List.foldlM_cons]
  rw [show roleStep { cluster_permissions := [⟨ClusterAction.READ⟩] } p =
        .ok { cluster_permissions := [⟨ClusterAction.READ⟩], warnings := [p] } from by
      simp [roleStep, hu]]
  rfl

/-- Claim C4, witness: the unknown-action theorem applied to the concrete
action string `"frobnicate"`. -/
theorem unknown_action_witness :
    allActionValues.contains "frobnicate" = false ∧
    Role._from_weaviate_role ⟨"n", [{ action := "read_cluster" }, { action := "frobnicate" }]⟩ =
      .ok (⟨"n", [⟨.READ⟩], [], [], [], [], [], [], []⟩, [{ action := "frobnicate" }]) :=
  ⟨by decide, unknown_action_warned_and_dropped "n" _ (by decide)⟩

/-- Claim C5: `_to_weaviate` on a Data variant with collection `"foo"` writes
`data.collection = "Foo"`, and the inbound path takes any wire collection value
verbatim, with no re-normalization. -/
theorem capitalization_outbound_only :
    (PermissionsOutputType.data ⟨"foo", .READ⟩)._to_weaviate =
      { action := "read_data", data := some ⟨"Foo"⟩ } ∧
    (∀ c : String, classifyPermission { action := "read_data", data := some ⟨c⟩ } =
      .ok (.data ⟨c, .READ⟩)) := by
  constructor
  · decide
  · intro c
    simp [classifyPermission, ClusterAction.ofString?, UsersAction.ofString?,
      CollectionsAction.ofString?, TenantsAction.ofString?, RolesAction.ofString?,
      DataAction.ofString?]

/-- Claim C6, counterexample: the Roles factory's scoping value is not
mandatory — `_RolesFactory.manage` invoked with the role absent defaults it to
the wildcard `"*"`. -/
theorem rolesFactory_role_defaults_to_wildcard :
    _RolesFactory.manage none none = ⟨"*", none, .MANAGE⟩ := rfl

/-- Claim C6, amended: at the factory layer, absence of the scoping value
defaults it to the wildcard `"*"` for the Collections, Tenants, Nodes, Backups
and Roles factories; the Data and Users factories and every public
`Permissions` builder require their scoping argument instead. -/
theorem factory_scoping_defaults :
    _CollectionsFactory.create none = ⟨"*", "*", .CREATE⟩ ∧
    _CollectionsFactory.read none = ⟨"*", "*", .READ⟩ ∧
    _CollectionsFactory.update none = ⟨"*", "*", .UPDATE⟩ ∧
    _CollectionsFactory.delete none = ⟨"*", "*", .DELETE⟩ ∧
    _TenantsFactory.create none = ⟨"*", .CREATE⟩ ∧
    _TenantsFactory.read none = ⟨"*", .READ⟩ ∧
    _TenantsFactory.update none = ⟨"*", .UPDATE⟩ ∧
    _TenantsFactory.delete none = ⟨"*", .DELETE⟩ ∧
    _NodesFactory.read none "minimal" = ⟨"minimal", "*", .READ⟩ ∧
    _BackupsFactory.manage none = ⟨"*", .MANAGE⟩ ∧
    _RolesFactory.manage none none = ⟨"*", none, .MANAGE⟩ ∧
    _RolesFactory.read none = ⟨"*", none, .READ⟩ := by
  refine ⟨rfl, rfl, rfl, rfl, rfl, rfl, rfl, rfl, rfl, rfl, rfl, rfl⟩

/-- Claim C7: a builder given a sequence of scoping values fans out to one
Variant per value-flag combination, scoping values as the outer loop and action
flags as the inner loop in category-declared order; in particular
`Permissions.data(["A","B"], create, read)` yields the four Variants
`[Data(A,create), Data(A,read), Data(B,create), Data(B,read)]`. -/
theorem data_builder_fanout :
    (∀ (cs : List String) (create read update delete : Bool),
      Permissions.data (.many cs) create read update delete =
        cs.flatMap (fun c =>
          (if create then [.data ⟨c, .CREATE⟩] else []) ++
          (if read then [.data ⟨c, .READ⟩] else []) ++
          (if update then [.data ⟨c, .UPDATE⟩] else []) ++
          (if delete then [.data ⟨c, .DELETE⟩] else []))) ∧
    Permissions.data (.many ["A", "B"]) true true false false =
      [.data ⟨"A", .CREATE⟩, .data ⟨"A", .READ⟩, .data ⟨"B", .CREATE⟩, .data ⟨"B", .READ⟩] := by
  constructor
  · intro cs c r u d
    simpa [StrOrSeq.toList, _DataFactory.create, _DataFactory.read, _DataFactory.update,
      _DataFactory.delete] using Permissions.data_eq (.many cs) c r u d
  · decide

/-- Claim C8, counterexample: no invocation of the Data builder produces a
Variant carrying `manage_data` — the builder exposes no flag for that action. -/
theorem no_builder_emits_manage_data :
    ¬ ∃ (col : StrOrSeq) (b₁ b₂ b₃ b₄ : Bool) (p : _DataPermission),
      PermissionsOutputType.data p ∈ Permissions.data col b₁ b₂ b₃ b₄ ∧
      p.action = DataAction.MANAGE := by
  rintro ⟨col, b₁, b₂, b₃, b₄, ⟨pc, pa⟩, hmem, hact⟩
  obtain rfl : pa = DataAction.MANAGE := hact
  rw [Permissions.data_eq] at hmem
  simp only [List.mem_flatMap] at hmem
  obtain ⟨c, -, hc⟩ := hmem
  cases b₁ <;> cases b₂ <;> cases b₃ <;> cases b₄ <;>
    simp_all [_DataFactory.create, _DataFactory.read, _DataFactory.update, _DataFactory.delete]

/-- Claim C8, amended: every action of every category except `manage_data` and
`manage_collections` is producible by a builder invocation (shown by the
all-flags invocations below), while the Collections builder, like the Data
builder, can never emit its category's manage action. -/
theorem builders_cover_all_other_actions :
    Permissions.data (.one "c") true true true true =
      [.data ⟨"c", .CREATE⟩, .data ⟨"c", .READ⟩, .data ⟨"c", .UPDATE⟩, .data ⟨"c", .DELETE⟩] ∧
    Permissions.collections (.one "c") true true true true =
      [.collections ⟨"c", "*", .CREATE⟩, .collections ⟨"c", "*", .READ⟩,
       .collections ⟨"c", "*", .UPDATE⟩, .collections ⟨"c", "*", .DELETE⟩] ∧
    Permissions.tenants (.one "c") true true true true =
      [.tenants ⟨"c", .CREATE⟩, .tenants ⟨"c", .READ⟩, .tenants ⟨"c", .UPDATE⟩,
       .tenants ⟨"c", .DELETE⟩] ∧
    Permissions.roles (.one "r") true (some (.asBool true)) =
      [.roles ⟨"r", none, .READ⟩, .roles ⟨"r", none, .MANAGE⟩] ∧
    Permissions.users (.one "u") true = [.users ⟨.ASSIGN_AND_REVOKE, "u"⟩] ∧
    Permissions.backup (.one "c") true = [.backups ⟨"c", .MANAGE⟩] ∧
    Permissions.nodes (.one "c") "verbose" true = [.nodes ⟨"verbose", "c", .READ⟩] ∧
    Permissions.cluster true = [.cluster ⟨.READ⟩] ∧
    ¬ ∃ (col : StrOrSeq) (b₁ b₂ b₃ b₄ : Bool) (p : _CollectionsPermission),
      PermissionsOutputType.collections p ∈ Permissions.collections col b₁ b₂ b₃ b₄ ∧
      p.action = CollectionsAction.MANAGE := by
  refine ⟨by decide, by decide, by decide, by decide, by decide, by decide, by decide,
    by decide, ?_⟩
  rintro ⟨col, b₁, b₂, b₃, b₄, ⟨pc, pt, pa⟩, hmem, hact⟩
  obtain rfl : pa = CollectionsAction.MANAGE := hact
  rw [Permissions.collections_eq] at hmem
  simp only [List.mem_flatMap] at hmem
  obtain ⟨c, -, hc⟩ := hmem
  cases b₁ <;> cases b₂ <;> cases b₃ <;> cases b₄ <;>
    simp_all [_CollectionsFactory.create, _CollectionsFactory.read,
      _CollectionsFactory.update, _CollectionsFactory.delete, orStar]

/-- Claim C9: the `Role.permissions` view concatenates the eight per-category
sequences in the fixed order cluster, collections, data, roles, users, backups,
nodes, tenants; a role with exactly one permission in each category produces
its permissions list in exactly that order. -/
theorem role_permissions_category_order (n : String) (pc : _ClusterPermission)
    (pco : _CollectionsPermission) (pd : _DataPermission) (pr : _RolesPermission)
    (pu : _UsersPermission) (pb : _BackupsPermission) (pn : _NodesPermission)
    (pt : _TenantsPermission) :
    Role.permissions ⟨n, [pc], [pco], [pd], [pr], [pu], [pb], [pn], [pt]⟩ =
      [.cluster pc, .collections pco, .data pd, .roles pr, .users pu, .backups pb,
       .nodes pn, .tenants pt] := by
  simp [Role.permissions]

/-- Claim C10: the Tenants variant carries no tenant field — its projection
writes the constant tenant `"*"` for every variant, and inbound parsing of a
tenants wire permission reads only the collection and the action, ignoring any
tenant value present on the wire. -/
theorem tenants_wire_star_and_inbound_ignores_tenant :
    (∀ p : _TenantsPermission, p._to_weaviate =
      { action := p.action.value, tenants := some ⟨capitalizeFirstLetter p.collection, "*"⟩ }) ∧
    (∀ (a : TenantsAction) (c t : String),
      classifyPermission { action := a.value, tenants := some ⟨c, t⟩ } =
        .ok (.tenants ⟨c, a⟩)) :=
  ⟨fun _ => rfl, tenants_parse_verbatim⟩

end WeaviateRBAC
